import Mathlib

/-!
Verification of the StoryBoardAI panel-generation core: a shallow embedding of
the undo/redo history hook (`useHistory` in the app root), the storyboard
orchestration handlers (`handleGenerateImage`, `handleEditImage`,
`handleOutpaintImage`, `handleAnimatePanel`, `handlePlayAudio` in the
Storyboard component) and the gemini service layer (`generatePanelImage`,
`outpaintPanelImage`, `generateVideoFromImage`, `generateAnimatic` in
`services/geminiService.ts`), together with proofs of the specified
properties of this code.

Modelling conventions:
* JS strings are lists of characters (`Str`); `String.prototype.includes`
  is infix containment of character lists.
* JS `undefined` for an optional string field is `Option.none`; JS
  truthiness of such a field (`!x` tests) is `truthy`.
* The external generation calls are opaque: each handler / service function
  is parameterised by the outcome the external capability returns
  (a media reference, `null`, or a thrown error message), and the embedding
  computes the resulting writes to the panel store.
* Asynchronous handlers are modelled by the ordered list of `setPanels`
  write-backs they perform; operation sequences apply one operation's
  writes atomically (one legal schedule of the event loop).
-/

namespace StoryBoard

/-- JS strings, modelled as lists of characters so that
`String.prototype.includes` becomes decidable infix containment. -/
abbrev Str := List Char

/-- Conversion from a Lean string literal into the character-list model. -/
def strOf (s : String) : Str := s.toList

/-- JS truthiness of an optional string field: `undefined` and the empty
string are falsy, every other string is truthy. -/
def truthy : Option Str → Bool
  | none => false
  | some s => !s.isEmpty

/-- The JS pattern `x || undefined` applied to an optional string: a falsy
value (absent or empty) becomes `undefined`, a truthy value is kept. -/
def orUndefined (x : Option Str) : Option Str :=
  if truthy x then x else none

/-- Character visual profile, from `types.ts`. -/
structure CharacterProfile where
  name : Str
  description : Str
  deriving DecidableEq

/-- Storyboard panel record, from `types.ts` plus the `imagePrompt` and
`transition` fields used by `services/geminiService.ts` and the Storyboard
component. -/
structure StoryPanel where
  id : Str
  panelNumber : Nat
  visualDescription : Str
  imagePrompt : Option Str
  shotType : Option Str
  dialogue : Option Str
  transition : Option Str
  imageUrl : Option Str
  videoUrl : Option Str
  isGeneratingImage : Bool
  isGeneratingVideo : Bool
  isPlayingAudio : Bool
  deriving DecidableEq

/-- The ordered panel collection held by the store. -/
abbrev PanelStore := List StoryPanel

/-! ### Prompt composition (`generatePanelImage`, geminiService.ts) -/

/-- One iteration of the consistency-reinforcement loop of
`generatePanelImage`: if the character name occurs in the working prompt,
append the parenthetical `" (name is description)"` restating the current
description; otherwise leave the working prompt unchanged. -/
def reinforceStep (s : Str) (c : CharacterProfile) : Str :=
  if c.name <:+: s then
    s ++ strOf " (" ++ c.name ++ strOf " is " ++ c.description ++ strOf ")"
  else s

/-- The full `characters.forEach` reinforcement loop over the registry. -/
def reinforceAll (cs : List CharacterProfile) (s : Str) : Str :=
  cs.foldl reinforceStep s

/-- The naive matching used by the fallback branch of `generatePanelImage`:
a character is included when its name occurs in the panel's visual
description or (when present) its dialogue. -/
def fallbackMatch (p : StoryPanel) (c : CharacterProfile) : Bool :=
  decide (c.name <:+: p.visualDescription) ||
    (match p.dialogue with
     | none => false
     | some d => decide (c.name <:+: d))

/-- One iteration of the fallback `characterContext` accumulation. -/
def fallbackStep (p : StoryPanel) (acc : Str) (c : CharacterProfile) : Str :=
  if fallbackMatch p c then
    acc ++ c.name ++ strOf " is " ++ c.description ++ strOf ". "
  else acc

/-- The `characterContext` string built by the fallback branch. -/
def characterContext (p : StoryPanel) (cs : List CharacterProfile) : Str :=
  cs.foldl (fallbackStep p) []

/-- Interpolation of an optional string into a JS template literal:
an absent value prints as the text `undefined`. -/
def jsTemplateOpt : Option Str → Str
  | none => strOf "undefined"
  | some s => s

/-- The `finalPrompt` variable of `generatePanelImage`: the reinforced
cached prompt when `panel.imagePrompt` is truthy, otherwise the fallback
construction from shot type, visual description and character context. -/
def finalPrompt (p : StoryPanel) (cs : List CharacterProfile) : Str :=
  if truthy p.imagePrompt then
    reinforceAll cs (p.imagePrompt.getD [])
  else
    strOf "Shot Type: " ++ jsTemplateOpt p.shotType ++ strOf ". Scene: " ++
      p.visualDescription ++ strOf ". Characters: " ++ characterContext p cs

/-- The `structuredPrompt` template of `generatePanelImage`, wrapping the
final prompt with the style header and the technical-quality suffix. -/
def structuredPrompt (p : StoryPanel) (style : Str) (cs : List CharacterProfile) : Str :=
  strOf "\n    [Style Specification]\n    Art Style: " ++ style ++
    strOf "\n    \n    [Technical Scene Description]\n    " ++ finalPrompt p cs ++
    strOf "\n    \n    [Technical Specifications]\n    High fidelity, cinematic lighting, detailed texture, 8k resolution.\n  "

/-! ### Outpaint canvas geometry (`outpaintPanelImage`, geminiService.ts) -/

/-- Outpaint directions (`OutpaintDirection` in geminiService.ts;
`zoomOut` models the string value `zoom-out`). -/
inductive OutpaintDirection where
  | up
  | down
  | left
  | right
  | zoomOut
  deriving DecidableEq

/-- WebIDL `unsigned long` coercion as it acts on the nonnegative finite
dimension values produced by the compositor: assignments to
`canvas.width` / `canvas.height` truncate the fractional part. -/
def jsUint (q : ℚ) : ℕ := ⌊q⌋₊

/-- The geometric output of the `processImage` canvas step: the canvas
dimensions actually produced — `canvas.width = newWidth` coerces the JS
double through `unsigned long`, truncating any fractional part — and the
exact draw offsets handed to `ctx.drawImage` (doubles, not truncated). -/
structure OutpaintGeometry where
  canvasWidth : Nat
  canvasHeight : Nat
  dx : ℚ
  dy : ℚ
  deriving DecidableEq

/-- The `EXPANSION_FACTOR` constant (0.5) of `outpaintPanelImage`. -/
def EXPANSION_FACTOR : ℚ := 1 / 2

/-- The canvas-composition switch of `outpaintPanelImage.processImage`
followed by the canvas assignments. Source dimensions are integers
(decoded raster); the switch arithmetic (multiply by 1.5 or 0.5,
subtract, halve) is exact in binary floating point for raster dimensions,
so ℚ is faithful for the intermediate doubles, and `jsUint` models the
truncating `canvas.width` / `canvas.height` assignment. -/
def outpaintGeometry (w h : Nat) : OutpaintDirection → OutpaintGeometry
  | .left => ⟨jsUint ((w : ℚ) * (1 + EXPANSION_FACTOR)), jsUint (h : ℚ),
      (w : ℚ) * EXPANSION_FACTOR, 0⟩
  | .right => ⟨jsUint ((w : ℚ) * (1 + EXPANSION_FACTOR)), jsUint (h : ℚ), 0, 0⟩
  | .up => ⟨jsUint (w : ℚ), jsUint ((h : ℚ) * (1 + EXPANSION_FACTOR)), 0,
      (h : ℚ) * EXPANSION_FACTOR⟩
  | .down => ⟨jsUint (w : ℚ), jsUint ((h : ℚ) * (1 + EXPANSION_FACTOR)), 0, 0⟩
  | .zoomOut => ⟨jsUint ((w : ℚ) * (3 / 2)), jsUint ((h : ℚ) * (3 / 2)),
      ((w : ℚ) * (3 / 2) - w) / 2, ((h : ℚ) * (3 / 2) - h) / 2⟩

/-! ### Video generation error contract (geminiService.ts) -/

/-- The error-message signature that identifies a credential failure in
`generateVideoFromImage` and `generateAnimatic`. -/
def entityNotFoundSig : Str := strOf "Requested entity was not found"

/-- Settlement of an external Veo video operation: the polling loop ends
with an optional video URI, or the whole call throws with a message. -/
inductive VeoOutcome where
  | success (uri : Option Str)
  | failure (msg : Str)
  deriving DecidableEq

/-- Result boundary of `generateVideoFromImage`: on success the URI gets
the API key appended; a thrown error whose message contains the
entity-not-found signature is rethrown, every other failure returns null. -/
def generateVideoFromImage (apiKey : Str) (o : VeoOutcome) : Except Str (Option Str) :=
  match o with
  | .success none => .ok none
  | .success (some uri) => .ok (some (uri ++ strOf "&key=" ++ apiKey))
  | .failure msg => if entityNotFoundSig <:+: msg then .error msg else .ok none

/-- Result boundary of `generateAnimatic`: identical credential-error
contract to `generateVideoFromImage`. -/
def generateAnimaticCall (apiKey : Str) (o : VeoOutcome) : Except Str (Option Str) :=
  match o with
  | .success none => .ok none
  | .success (some uri) => .ok (some (uri ++ strOf "&key=" ++ apiKey))
  | .failure msg => if entityNotFoundSig <:+: msg then .error msg else .ok none

/-- The reference-panel selection of `generateAnimatic`:
`panels.filter(p => p.imageUrl).slice(0, 3)`. -/
def validPanels (ps : PanelStore) : PanelStore :=
  (ps.filter fun p => truthy p.imageUrl).take 3

/-- The guarded entry of `generateAnimatic`: `null` when fewer than two
image-bearing panels were selected, otherwise the generation request is
issued carrying exactly the selected panels (their images, in panel order)
as reference images. -/
def generateAnimaticPlan (ps : PanelStore) : Option PanelStore :=
  if (validPanels ps).length < 2 then none else some (validPanels ps)

/-! ### Orchestration handlers (Storyboard component) -/

/-- The single mutation shape used by every handler write-back:
`prev.map(p => p.id === id ? f(p) : p)`. -/
def updatePanel (ps : PanelStore) (pid : Str) (f : StoryPanel → StoryPanel) : PanelStore :=
  ps.map fun p => if p.id = pid then f p else p

/-- First write-back of the image pipeline: raise `isGeneratingImage`. -/
def startImageFlag (p : StoryPanel) : StoryPanel :=
  { p with isGeneratingImage := true }

/-- Settlement write-back of the image pipeline:
`imageUrl: imageUrl || undefined, isGeneratingImage: false`. -/
def finishImage (res : Option Str) (p : StoryPanel) : StoryPanel :=
  { p with imageUrl := orUndefined res, isGeneratingImage := false }

/-- First write-back of the video pipeline: raise `isGeneratingVideo`. -/
def startVideoFlag (p : StoryPanel) : StoryPanel :=
  { p with isGeneratingVideo := true }

/-- Success-path settlement write-back of `handleAnimatePanel`:
`videoUrl: videoUrl || undefined, isGeneratingVideo: false`. -/
def finishVideo (res : Option Str) (p : StoryPanel) : StoryPanel :=
  { p with videoUrl := orUndefined res, isGeneratingVideo := false }

/-- Catch-path settlement write-back of `handleAnimatePanel`: only the
flag is reset, `videoUrl` is untouched. -/
def clearVideoFlag (p : StoryPanel) : StoryPanel :=
  { p with isGeneratingVideo := false }

/-- First write-back of `handlePlayAudio`: raise `isPlayingAudio`. -/
def startAudioFlag (p : StoryPanel) : StoryPanel :=
  { p with isPlayingAudio := true }

/-- Final write-back of `handlePlayAudio` (playback ended, null data, or
exception): reset `isPlayingAudio`. -/
def clearAudioFlag (p : StoryPanel) : StoryPanel :=
  { p with isPlayingAudio := false }

/-- Observable effect of one handler invocation: the successive panel
stores after each `setPanels` write-back it performs (in order), and
whether an external generation call was issued. -/
structure HandlerRun where
  writes : List PanelStore
  requested : Bool
  deriving DecidableEq

/-- The store visible after a handler run: the last write-back, or the
original store when the handler performed none. -/
def finalStore (ps : PanelStore) (r : HandlerRun) : PanelStore :=
  r.writes.getLastD ps

/-- Settlement of `generateVideoFromImage` as seen by
`handleAnimatePanel`: a resolved optional URL, or a thrown error. -/
inductive AnimateOutcome where
  | ok (res : Option Str)
  | threw (msg : Str)
  deriving DecidableEq

/-- `handleGenerateImage`: raise the image flag, issue the generation
call, then write `imageUrl: result || undefined` and drop the flag. -/
def handleGenerateImage (ps : PanelStore) (panel : StoryPanel) (res : Option Str) : HandlerRun :=
  let s1 := updatePanel ps panel.id startImageFlag
  let s2 := updatePanel s1 panel.id (finishImage res)
  ⟨[s1, s2], true⟩

/-- `handleEditImage`: no-op unless the panel has a truthy `imageUrl`;
otherwise the same flag/write-back shape as `handleGenerateImage`. -/
def handleEditImage (ps : PanelStore) (panel : StoryPanel) (res : Option Str) : HandlerRun :=
  if truthy panel.imageUrl then
    let s1 := updatePanel ps panel.id startImageFlag
    let s2 := updatePanel s1 panel.id (finishImage res)
    ⟨[s1, s2], true⟩
  else ⟨[], false⟩

/-- `handleOutpaintImage`: no-op unless the panel has a truthy `imageUrl`;
otherwise the same flag/write-back shape as `handleGenerateImage`. -/
def handleOutpaintImage (ps : PanelStore) (panel : StoryPanel) (d : OutpaintDirection)
    (res : Option Str) : HandlerRun :=
  if truthy panel.imageUrl then
    let s1 := updatePanel ps panel.id startImageFlag
    let s2 := updatePanel s1 panel.id (finishImage res)
    ⟨[s1, s2], true⟩
  else ⟨[], false⟩

/-- `handleAnimatePanel`: no-op unless the panel has a truthy `imageUrl`;
otherwise raise the video flag, call the video service, and settle with
either the success write-back or the catch write-back. -/
def handleAnimatePanel (ps : PanelStore) (panel : StoryPanel) (o : AnimateOutcome) : HandlerRun :=
  if truthy panel.imageUrl then
    let s1 := updatePanel ps panel.id startVideoFlag
    match o with
    | .ok res => ⟨[s1, updatePanel s1 panel.id (finishVideo res)], true⟩
    | .threw _ => ⟨[s1, updatePanel s1 panel.id clearVideoFlag], true⟩
  else ⟨[], false⟩

/-- `handlePlayAudio`: no-op on empty dialogue text; otherwise raise the
audio flag and reset it when playback settles (end of playback, null
synthesis result, or exception all perform the same flag-reset write). -/
def handlePlayAudio (ps : PanelStore) (panelId : Str) (text : Str) : HandlerRun :=
  if text.isEmpty then ⟨[], false⟩
  else
    let s1 := updatePanel ps panelId startAudioFlag
    ⟨[s1, updatePanel s1 panelId clearAudioFlag], true⟩

/-! ### The undo/redo history hook (`useHistory`, app root) -/

/-- State of the `useHistory` hook: `past` snapshots (oldest first),
the current value, and `future` snapshots (nearest first). -/
structure Hist (α : Type) where
  past : List α
  current : α
  future : List α
  deriving DecidableEq

namespace Hist

variable {α : Type}

/-- `setState` with a plain value: push the previous current onto `past`,
clear `future`, install the new value. -/
def setState (h : Hist α) (v : α) : Hist α :=
  ⟨h.past ++ [h.current], v, []⟩

/-- `setState` with an updater function: the new value is computed from
the latest current (the functional form used by every handler). -/
def setStateWith (h : Hist α) (f : α → α) : Hist α :=
  ⟨h.past ++ [h.current], f h.current, []⟩

/-- `undo`: no-op when `past` is empty, otherwise pop the last `past`
entry into current and push the old current onto the front of `future`. -/
def undo (h : Hist α) : Hist α :=
  match h.past.getLast? with
  | none => h
  | some prev => ⟨h.past.dropLast, prev, h.current :: h.future⟩

/-- `redo`: no-op when `future` is empty, otherwise take the first
`future` entry as current and push the old current onto `past`. -/
def redo (h : Hist α) : Hist α :=
  match h.future with
  | [] => h
  | nxt :: rest => ⟨h.past ++ [h.current], nxt, rest⟩

/-- Derived flag: `past` is not empty. -/
def canUndo (h : Hist α) : Bool := !h.past.isEmpty

/-- Derived flag: `future` is not empty. -/
def canRedo (h : Hist α) : Bool := !h.future.isEmpty

/-- `resetHistory`: clear both stacks, keep the current value. -/
def resetHistory (h : Hist α) : Hist α := ⟨[], h.current, []⟩

/-- Iterated `undo`. -/
def undoIter (h : Hist α) : Nat → Hist α
  | 0 => h
  | n + 1 => h.undo.undoIter n

/-- The operations of a history session consisting of `setPanels` calls
and `undo` calls. -/
inductive HistOp (α : Type) where
  | set (v : α)
  | undoOp
  deriving DecidableEq

/-- Apply one history operation. -/
def applyHistOp (h : Hist α) : HistOp α → Hist α
  | .set v => h.setState v
  | .undoOp => h.undo

/-- Run a sequence of history operations. -/
def runOps (h : Hist α) (ops : List (HistOp α)) : Hist α :=
  ops.foldl applyHistOp h

/-- The value that was visible immediately before the most recent
non-undo mutation of an operation sequence (`none` when the sequence
contains no mutation). -/
def beforeLastSet? (h : Hist α) : List (HistOp α) → Option α
  | [] => none
  | op :: rest =>
    match beforeLastSet? (applyHistOp h op) rest with
    | some a => some a
    | none =>
      match op with
      | .set _ => some h.current
      | .undoOp => none

/-- Invariant tying a run to its origin: the oldest `past` snapshot — or,
when `past` is empty, the current value — is the initial value. -/
def pastAnchor (c₀ : α) (h : Hist α) : Prop :=
  match h.past with
  | [] => h.current = c₀
  | x :: _ => x = c₀

end Hist

/-! ### Panel-store operation semantics (handlers acting on the history) -/

/-- History of panel collections, as held by the app root. -/
abbrev StoreHist := Hist PanelStore

/-- One user-triggerable panel operation together with the outcome of its
external call, as listed by the reachability claims. -/
inductive PanelOp where
  | generate (pid : Str) (res : Option Str)
  | edit (pid : Str) (res : Option Str)
  | outpaint (pid : Str) (res : Option Str)
  | animate (pid : Str) (o : AnimateOutcome)
  | undoOp
  | redoOp
  deriving DecidableEq

/-- Truthiness of the target panel's `imageUrl` in the current store: the
guard the handlers evaluate on the clicked panel. -/
def storeTruthyImage (ps : PanelStore) (pid : Str) : Bool :=
  match ps.find? (fun p => decide (p.id = pid)) with
  | none => false
  | some p => truthy p.imageUrl

/-- The two history-tracked write-backs shared by the image-pipeline
handlers (generate / regenerate / edit / outpaint): raise the flag, then
settle with `imageUrl: result || undefined` and drop the flag. -/
def imageOpApply (h : StoreHist) (pid : Str) (res : Option Str) : StoreHist :=
  (h.setStateWith fun ps => updatePanel ps pid startImageFlag).setStateWith
    fun ps => updatePanel ps pid (finishImage res)

/-- The history-tracked write-backs of `handleAnimatePanel` under a given
outcome (guarded by the caller). -/
def animateOpApply (h : StoreHist) (pid : Str) (o : AnimateOutcome) : StoreHist :=
  let h1 := h.setStateWith fun ps => updatePanel ps pid startVideoFlag
  match o with
  | .ok res => h1.setStateWith fun ps => updatePanel ps pid (finishVideo res)
  | .threw _ => h1.setStateWith fun ps => updatePanel ps pid clearVideoFlag

/-- Apply one panel operation to the store history, including the
handlers' entry guards. -/
def applyPanelOp (h : StoreHist) : PanelOp → StoreHist
  | .generate pid res => imageOpApply h pid res
  | .edit pid res =>
    if storeTruthyImage h.current pid then imageOpApply h pid res else h
  | .outpaint pid res =>
    if storeTruthyImage h.current pid then imageOpApply h pid res else h
  | .animate pid o =>
    if storeTruthyImage h.current pid then animateOpApply h pid o else h
  | .undoOp => h.undo
  | .redoOp => h.redo

/-- Run a sequence of panel operations. -/
def runPanelOps (h : StoreHist) (ops : List PanelOp) : StoreHist :=
  ops.foldl applyPanelOp h

/-- The media invariant of the data model: a panel without a still image
has no video clip. -/
def mediaInv (ps : PanelStore) : Prop :=
  ∀ p ∈ ps, p.imageUrl = none → p.videoUrl = none

/-- A store property holding for the current collection and for every
snapshot on both history stacks. -/
def histAll (P : PanelStore → Prop) (h : StoreHist) : Prop :=
  P h.current ∧ (∀ s ∈ h.past, P s) ∧ (∀ s ∈ h.future, P s)

/-- The media invariant over every snapshot held by the history. -/
def histMediaInv (h : StoreHist) : Prop := histAll mediaInv h

/-- The id sequence of a store. -/
def storeIds (ps : PanelStore) : List Str := ps.map fun p => p.id

/-- The inductive store invariant: media invariant plus distinct ids. -/
def storeInv (ps : PanelStore) : Prop := mediaInv ps ∧ (storeIds ps).Nodup

/-- Shape of a freshly analyzed script: panels carry no image, no video
(the analyzer never sets these fields), and distinct ids. -/
def analyzedBlank (ps : PanelStore) : Prop :=
  (∀ p ∈ ps, p.imageUrl = none ∧ p.videoUrl = none) ∧ (storeIds ps).Nodup

instance instDecidableMediaInv (ps : PanelStore) : Decidable (mediaInv ps) :=
  decidable_of_iff (∀ p ∈ ps, p.imageUrl = none → p.videoUrl = none) Iff.rfl

instance instDecidableAnalyzedBlank (ps : PanelStore) : Decidable (analyzedBlank ps) :=
  decidable_of_iff ((∀ p ∈ ps, p.imageUrl = none ∧ p.videoUrl = none) ∧
    (storeIds ps).Nodup) Iff.rfl

/-- Safety side condition on one image-pipeline settlement: the external
result is truthy, or the targeted panel carries no video clip. -/
def imageOpSafe (ps : PanelStore) (pid : Str) (res : Option Str) : Prop :=
  truthy res = true ∨ ∀ p ∈ ps, p.id = pid → p.videoUrl = none

/-- Safety side condition of one operation in a given state. -/
def opSafe (h : StoreHist) : PanelOp → Prop
  | .generate pid res => imageOpSafe h.current pid res
  | .edit pid res => imageOpSafe h.current pid res
  | .outpaint pid res => imageOpSafe h.current pid res
  | .animate _ _ => True
  | .undoOp => True
  | .redoOp => True

/-- A trace whose every operation is safe in the state it fires in. -/
def SafeTrace (h : StoreHist) : List PanelOp → Prop
  | [] => True
  | op :: rest => opSafe h op ∧ SafeTrace (applyPanelOp h op) rest

/-- Positional frame property of a write-back: same length, same id at
every position, and positions whose id differs from the target are
untouched in all fields. -/
def framePreserved (ps qs : PanelStore) (pid : Str) : Prop :=
  qs.length = ps.length ∧
    ∀ i p0, ps.get? i = some p0 →
      ∃ q, qs.get? i = some q ∧ q.id = p0.id ∧ (p0.id ≠ pid → q = p0)

/-! ### Concrete fixtures for counterexamples and witnesses -/

/-- A panel as produced by script analysis: no media, all flags down. -/
def blankPanel (i : Str) (n : Nat) : StoryPanel :=
  { id := i, panelNumber := n, visualDescription := [], imagePrompt := none,
    shotType := none, dialogue := none, transition := none, imageUrl := none,
    videoUrl := none, isGeneratingImage := false, isGeneratingVideo := false,
    isPlayingAudio := false }

/-- A panel holding a previously generated image. -/
def panelWithImage : StoryPanel :=
  { blankPanel (strOf "p1") 1 with imageUrl := some (strOf "data:old") }

/-- Five panels of which only the last two carry an image. -/
def lateImagePanels : PanelStore :=
  [blankPanel (strOf "a") 1, blankPanel (strOf "b") 2, blankPanel (strOf "c") 3,
   { blankPanel (strOf "d") 4 with imageUrl := some (strOf "img4") },
   { blankPanel (strOf "e") 5 with imageUrl := some (strOf "img5") }]

/-- A registry entry used by the prompt-composition witnesses. -/
def alice : CharacterProfile := ⟨strOf "Alice", strOf "tall"⟩

/-- A panel whose cached technical prompt mentions Alice. -/
def promptPanelA : StoryPanel :=
  { blankPanel (strOf "w1") 1 with imagePrompt := some (strOf "Alice runs") }

/-- A panel on the fallback path whose description mentions only Bob. -/
def promptPanelB : StoryPanel :=
  { blankPanel (strOf "w2") 2 with visualDescription := strOf "Bob walks" }

/-- Trace reaching a panel that holds a clip but no still: generate an
image, animate it, then a regenerate whose external call fails. -/
def clipWithoutStillTrace : List PanelOp :=
  [.generate (strOf "a") (some (strOf "I")),
   .animate (strOf "a") (.ok (some (strOf "V"))),
   .generate (strOf "a") none]

/-! ### History lemmas -/

/-- Computation of `undo` on a non-empty past. -/
theorem undo_concat {α : Type} (ps : List α) (x c : α) (fut : List α) :
    Hist.undo ⟨ps ++ [x], c, fut⟩ = ⟨ps, x, c :: fut⟩ := by
  simp [Hist.undo, List.getLast?_concat, List.dropLast_concat]

/-- Undoing right after a mutation restores the value visible before it. -/
theorem setState_undo_current {α : Type} (h : Hist α) (v : α) :
    ((h.setState v).undo).current = h.current := by
  cases h with
  | mk ps c fut => simp [Hist.setState, undo_concat]

/-- `setState` preserves the anchoring of the history to its origin. -/
theorem pastAnchor_setState {α : Type} (c₀ : α) (h : Hist α) (v : α)
    (ha : Hist.pastAnchor c₀ h) : Hist.pastAnchor c₀ (h.setState v) := by
  cases h with
  | mk ps c fut =>
    cases ps with
    | nil => simpa [Hist.pastAnchor, Hist.setState] using ha
    | cons x rest => simpa [Hist.pastAnchor, Hist.setState] using ha

/-- `undo` preserves the anchoring of the history to its origin. -/
theorem pastAnchor_undo {α : Type} (c₀ : α) (h : Hist α)
    (ha : Hist.pastAnchor c₀ h) : Hist.pastAnchor c₀ h.undo := by
  cases h with
  | mk ps c fut =>
    rcases List.eq_nil_or_concat ps with rfl | ⟨l, x, rfl⟩
    · simpa [Hist.undo] using ha
    · rw [List.concat_eq_append] at ha ⊢
      rw [undo_concat]
      cases l with
      | nil => simpa [Hist.pastAnchor] using ha
      | cons y rest => simpa [Hist.pastAnchor] using ha

/-- Undoing as many times as `past` is long drains the stack and lands on
the anchored origin value. -/
theorem undoIter_drains {α : Type} (c₀ : α) :
    ∀ (n : Nat) (h : Hist α), h.past.length = n → Hist.pastAnchor c₀ h →
      (h.undoIter n).current = c₀ ∧ (h.undoIter n).past = [] := by
  intro n
  induction n with
  | zero =>
    intro h hlen ha
    cases h with
    | mk ps c fut =>
      obtain rfl : ps = [] := List.length_eq_zero.mp hlen
      exact ⟨ha, rfl⟩
  | succ n ih =>
    intro h hlen ha
    cases h with
    | mk ps c fut =>
      rcases List.eq_nil_or_concat ps with rfl | ⟨l, x, rfl⟩
      · simp at hlen
      · rw [List.concat_eq_append] at hlen ha ⊢
        have hu : Hist.undo ⟨l ++ [x], c, fut⟩ = ⟨l, x, c :: fut⟩ := undo_concat l x c fut
        have ha2 : Hist.pastAnchor c₀ (⟨l, x, c :: fut⟩ : Hist α) := by
          have := pastAnchor_undo c₀ ⟨l ++ [x], c, fut⟩ ha
          rwa [hu] at this
        have hlen2 : (⟨l, x, c :: fut⟩ : Hist α).past.length = n := by
          simp at hlen ⊢
          omega
        have : Hist.undoIter ⟨l ++ [x], c, fut⟩ (n + 1) =
            Hist.undoIter ⟨l, x, c :: fut⟩ n := by
          simp [Hist.undoIter, hu]
        rw [this]
        exact ih _ hlen2 ha2

/-- Every run of `setPanels` / `undo` operations stays anchored. -/
theorem pastAnchor_runOps {α : Type} (c₀ : α) (ops : List (Hist.HistOp α)) :
    ∀ h : Hist α, Hist.pastAnchor c₀ h → Hist.pastAnchor c₀ (Hist.runOps h ops) := by
  induction ops with
  | nil => intro h ha; exact ha
  | cons op rest ih =>
    intro h ha
    have hstep : Hist.pastAnchor c₀ (Hist.applyHistOp h op) := by
      cases op with
      | set v => exact pastAnchor_setState c₀ h v ha
      | undoOp => exact pastAnchor_undo c₀ h ha
    exact ih _ hstep

/-! ### Claim C4 -/

/-- C4 counterexample: starting from the collection 0, the sequence
`setPanels 1; setPanels 2; undo; undo` shows 0 after the final undo,
while the collection visible immediately before the most recent non-undo
mutation (the `setPanels 2` call) was 1 — so an undo does not always
restore the collection visible before the most recent non-undo mutation. -/
theorem undo_after_double_undo_cex :
    Hist.beforeLastSet? (⟨[], (0 : Nat), []⟩ : Hist Nat)
      [.set 1, .set 2, .undoOp] = some 1 ∧
    (Hist.runOps (⟨[], (0 : Nat), []⟩ : Hist Nat)
      [.set 1, .set 2, .undoOp, .undoOp]).current = 0 ∧
    (0 : Nat) ≠ 1 := by
  decide

/-- C4 (amended): an undo performed immediately after a `setPanels` call
shows the collection visible before that call; `undo` is a no-op when
`past` is empty; and from a post-reset initial collection, undoing as many
times as `past` is long (i.e. until `canUndo` is false) restores the
initial collection, after which `canUndo` is false. -/
theorem undo_semantics {α : Type} (c₀ v : α) (h : Hist α) (ops : List (Hist.HistOp α)) :
    ((h.setState v).undo).current = h.current ∧
    (h.past = [] → h.undo = h) ∧
    ((Hist.runOps ⟨[], c₀, []⟩ ops).undoIter
      (Hist.runOps ⟨[], c₀, []⟩ ops).past.length).current = c₀ ∧
    Hist.canUndo ((Hist.runOps ⟨[], c₀, []⟩ ops).undoIter
      (Hist.runOps ⟨[], c₀, []⟩ ops).past.length) = false := by
  have hanchor : Hist.pastAnchor c₀ (Hist.runOps (⟨[], c₀, []⟩ : Hist α) ops) :=
    pastAnchor_runOps c₀ ops _ rfl
  obtain ⟨hc, hp⟩ := undoIter_drains c₀ (Hist.runOps (⟨[], c₀, []⟩ : Hist α) ops).past.length
    (Hist.runOps ⟨[], c₀, []⟩ ops) rfl hanchor
  refine ⟨setState_undo_current h v, ?_, hc, ?_⟩
  · intro hpast
    cases h with
    | mk ps c fut =>
      simp only at hpast
      subst hpast
      rfl
  · simp [Hist.canUndo, hp]

/-- Concrete instantiation of `undo_semantics` at the initial collection 0
and the run `setPanels 1; undo`. -/
theorem undo_semantics_witness :
    (((⟨[], (0 : Nat), []⟩ : Hist Nat).setState 1).undo).current = 0 ∧
    Hist.undo (⟨[], (0 : Nat), []⟩ : Hist Nat) = ⟨[], 0, []⟩ ∧
    ((Hist.runOps (⟨[], (0 : Nat), []⟩ : Hist Nat) [.set 1, .undoOp]).undoIter
      (Hist.runOps (⟨[], (0 : Nat), []⟩ : Hist Nat) [.set 1, .undoOp]).past.length).current = 0 ∧
    Hist.canUndo ((Hist.runOps (⟨[], (0 : Nat), []⟩ : Hist Nat) [.set 1, .undoOp]).undoIter
      (Hist.runOps (⟨[], (0 : Nat), []⟩ : Hist Nat) [.set 1, .undoOp]).past.length) = false := by
  have t := undo_semantics (0 : Nat) 1 ⟨[], 0, []⟩ [.set 1, .undoOp]
  exact ⟨t.1, t.2.1 rfl, t.2.2.1, t.2.2.2⟩

/-! ### Claim C5 -/

/-- C5: on a history with non-empty past, `undo` followed by `redo`
restores the exact pre-undo state (current, past and future); `setPanels`
always clears `future`; hence the sequence
`setPanels a; setPanels b; undo; setPanels d` leaves `canRedo` false. -/
theorem undo_redo_roundtrip {α : Type} (h h₀ : Hist α) (v a b d : α)
    (hp : h.past ≠ []) :
    h.undo.redo = h ∧
    (h.setState v).future = [] ∧
    Hist.canRedo ((((h₀.setState a).setState b).undo).setState d) = false := by
  refine ⟨?_, rfl, rfl⟩
  cases h with
  | mk ps c fut =>
    rcases List.eq_nil_or_concat ps with rfl | ⟨l, x, rfl⟩
    · simp at hp
    · rw [List.concat_eq_append, undo_concat]
      rfl

/-- Concrete instantiation of `undo_redo_roundtrip` on the history with
past `[5]`, current `6`, future `[7]`. -/
theorem undo_redo_roundtrip_witness :
    (⟨[5], (6 : Nat), [7]⟩ : Hist Nat).undo.redo = ⟨[5], 6, [7]⟩ ∧
    ((⟨[5], (6 : Nat), [7]⟩ : Hist Nat).setState 8).future = [] ∧
    Hist.canRedo (((((⟨[], (0 : Nat), []⟩ : Hist Nat).setState 1).setState 2).undo).setState 3) = false := by
  have t := undo_redo_roundtrip (⟨[5], (6 : Nat), [7]⟩ : Hist Nat)
    (⟨[], (0 : Nat), []⟩ : Hist Nat) 8 1 2 3 (by decide)
  exact t

/-! ### Claim C7 -/

/-- Canvas assignment of an integral dimension is the identity. -/
theorem jsUint_natCast (n : Nat) : jsUint (n : ℚ) = n := by
  simp [jsUint]

/-- Canvas assignment of a 1.5x-scaled integral dimension truncates to
`3 * n / 2` in integer division (the directional branches). -/
theorem jsUint_three_half (n : Nat) :
    jsUint ((n : ℚ) * (1 + EXPANSION_FACTOR)) = 3 * n / 2 := by
  rw [show (n : ℚ) * (1 + EXPANSION_FACTOR) = ((3 * n : ℕ) : ℚ) / ((2 : ℕ) : ℚ) by
    rw [EXPANSION_FACTOR]; push_cast; ring]
  rw [jsUint, Rat.natFloor_natCast_div_natCast]

/-- Canvas assignment of a 1.5x-scaled integral dimension truncates to
`3 * n / 2` in integer division (the zoom-out branch). -/
theorem jsUint_mul_three_div_two (n : Nat) :
    jsUint ((n : ℚ) * (3 / 2)) = 3 * n / 2 := by
  rw [show (n : ℚ) * (3 / 2) = ((3 * n : ℕ) : ℚ) / ((2 : ℕ) : ℚ) by push_cast; ring]
  rw [jsUint, Rat.natFloor_natCast_div_natCast]

/-- Componentwise equality of canvas geometries. -/
theorem outpaintGeometry_mk_eq {a b : ℕ} {c d : ℚ} {a2 b2 : ℕ} {c2 d2 : ℚ}
    (ha : a = a2) (hb : b = b2) (hc : c = c2) (hd : d = d2) :
    (⟨a, b, c, d⟩ : OutpaintGeometry) = ⟨a2, b2, c2, d2⟩ := by
  rw [ha, hb, hc, hd]

/-- C7 counterexample: a 101x101 source expanded left produces a canvas
151 pixels wide — `canvas.width` is a WebIDL unsigned long, so the
assigned 151.5 is truncated — not the exact 1.5x width (151.5) the claim
specifies for every source. -/
theorem outpaint_truncation_cex :
    (outpaintGeometry 101 101 .left).canvasWidth = 151 ∧
    ((outpaintGeometry 101 101 .left).canvasWidth : ℚ) ≠ 3 / 2 * 101 := by
  have hcw : (outpaintGeometry 101 101 .left).canvasWidth = 151 := by
    show jsUint (((101 : ℕ) : ℚ) * (1 + EXPANSION_FACTOR)) = 151
    rw [jsUint_three_half]
  refine ⟨hcw, ?_⟩
  rw [hcw]
  norm_num

/-- C7 (amended): the outpaint canvas compositor is a pure function of
(dimensions, direction), leaves the untouched dimension unchanged and
sets the expanded canvas dimension to the 1.5x value truncated to an
integer by the canvas assignment (`3 * dim / 2` in integer division —
exactly 1.5x whenever the dimension is even, as in the spec's examples),
with the original drawn at the exact offsets: 0.5x width for `left`,
0.5x height for `up`, 0 for `right` / `down`, and (new - old)/2 per axis
for `zoom-out`; a 100x100 source expanded left yields a 150x100 canvas
with the original at offset (50, 0). -/
theorem outpaint_geometry_spec (w h : Nat) :
    outpaintGeometry w h .left = ⟨3 * w / 2, h, 1 / 2 * (w : ℚ), 0⟩ ∧
    outpaintGeometry w h .right = ⟨3 * w / 2, h, 0, 0⟩ ∧
    outpaintGeometry w h .up = ⟨w, 3 * h / 2, 0, 1 / 2 * (h : ℚ)⟩ ∧
    outpaintGeometry w h .down = ⟨w, 3 * h / 2, 0, 0⟩ ∧
    outpaintGeometry w h .zoomOut =
      ⟨3 * w / 2, 3 * h / 2, (3 / 2 * (w : ℚ) - w) / 2, (3 / 2 * (h : ℚ) - h) / 2⟩ ∧
    (w % 2 = 0 → ((outpaintGeometry w h .left).canvasWidth : ℚ) = 3 / 2 * (w : ℚ)) ∧
    (h % 2 = 0 → ((outpaintGeometry w h .up).canvasHeight : ℚ) = 3 / 2 * (h : ℚ)) ∧
    outpaintGeometry 100 100 .left = ⟨150, 100, 50, 0⟩ := by
  have hEven : ∀ n : Nat, n % 2 = 0 → ((3 * n / 2 : ℕ) : ℚ) = 3 / 2 * (n : ℚ) := by
    intro n hn
    obtain ⟨k, rfl⟩ : ∃ k, n = 2 * k := ⟨n / 2, by omega⟩
    have h3 : 3 * (2 * k) / 2 = 3 * k := by omega
    rw [h3]
    push_cast
    ring
  have hcwL : ∀ w2 h2 : Nat, (outpaintGeometry w2 h2 .left).canvasWidth = 3 * w2 / 2 := by
    intro w2 h2
    show jsUint ((w2 : ℚ) * (1 + EXPANSION_FACTOR)) = 3 * w2 / 2
    rw [jsUint_three_half]
  have hchU : ∀ w2 h2 : Nat, (outpaintGeometry w2 h2 .up).canvasHeight = 3 * h2 / 2 := by
    intro w2 h2
    show jsUint ((h2 : ℚ) * (1 + EXPANSION_FACTOR)) = 3 * h2 / 2
    rw [jsUint_three_half]
  refine ⟨?_, ?_, ?_, ?_, ?_, ?_, ?_, ?_⟩
  · exact outpaintGeometry_mk_eq (jsUint_three_half w) (jsUint_natCast h)
      (by rw [EXPANSION_FACTOR]; ring) rfl
  · exact outpaintGeometry_mk_eq (jsUint_three_half w) (jsUint_natCast h) rfl rfl
  · exact outpaintGeometry_mk_eq (jsUint_natCast w) (jsUint_three_half h) rfl
      (by rw [EXPANSION_FACTOR]; ring)
  · exact outpaintGeometry_mk_eq (jsUint_natCast w) (jsUint_three_half h) rfl rfl
  · exact outpaintGeometry_mk_eq (jsUint_mul_three_div_two w)
      (jsUint_mul_three_div_two h) (by ring) (by ring)
  · intro hw
    rw [hcwL w h]
    exact hEven w hw
  · intro hh
    rw [hchU w h]
    exact hEven h hh
  · exact outpaintGeometry_mk_eq (by rw [jsUint_three_half]) (jsUint_natCast 100)
      (by rw [EXPANSION_FACTOR]; norm_num) rfl

/-- Concrete instantiation of `outpaint_geometry_spec` at the even
100x100 source, where the truncated dimensions are exactly 1.5x. -/
theorem outpaint_geometry_spec_witness :
    ((outpaintGeometry 100 100 .left).canvasWidth : ℚ) = 3 / 2 * (100 : ℚ) ∧
    ((outpaintGeometry 100 100 .up).canvasHeight : ℚ) = 3 / 2 * (100 : ℚ) ∧
    outpaintGeometry 100 100 .left = ⟨150, 100, 50, 0⟩ := by
  have t := outpaint_geometry_spec 100 100
  exact ⟨t.2.2.2.2.2.1 rfl, t.2.2.2.2.2.2.1 rfl, t.2.2.2.2.2.2.2⟩

/-! ### Claim C8 -/

/-- C8: `generateVideoFromImage` and `generateAnimatic` rethrow the error
to the caller exactly when the failure message contains the
"Requested entity was not found" signature, and return null for every
other failure. -/
theorem credential_error_spec (apiKey msg : Str) :
    (entityNotFoundSig <:+: msg →
      generateVideoFromImage apiKey (.failure msg) = .error msg ∧
      generateAnimaticCall apiKey (.failure msg) = .error msg) ∧
    (¬ entityNotFoundSig <:+: msg →
      generateVideoFromImage apiKey (.failure msg) = .ok none ∧
      generateAnimaticCall apiKey (.failure msg) = .ok none) := by
  constructor
  · intro hsig
    simp [generateVideoFromImage, generateAnimaticCall, hsig]
  · intro hsig
    simp [generateVideoFromImage, generateAnimaticCall, hsig]

/-- Concrete instantiation of `credential_error_spec`: a message equal to
the signature is rethrown by both functions, and an unrelated message
makes both return null. -/
theorem credential_error_spec_witness :
    generateVideoFromImage [] (.failure entityNotFoundSig) = .error entityNotFoundSig ∧
    generateAnimaticCall [] (.failure entityNotFoundSig) = .error entityNotFoundSig ∧
    generateVideoFromImage [] (.failure (strOf "network timeout")) = .ok none ∧
    generateAnimaticCall [] (.failure (strOf "network timeout")) = .ok none := by
  have t1 := (credential_error_spec [] entityNotFoundSig).1 (List.infix_refl _)
  have t2 := (credential_error_spec [] (strOf "network timeout")).2 (by decide)
  exact ⟨t1.1, t1.2, t2.1, t2.2⟩

/-! ### Claim C2 -/

/-- C2 counterexample: in a five-panel collection where only the last two
panels carry an image, none of the first 3 panels has an `imageUrl`, yet
animatic assembly does not refuse — it proceeds with the two late
image-bearing panels (ids d, e) as reference images. The refusal condition
counts image-bearing panels of the whole collection, not of its first 3. -/
theorem animatic_first_three_cex :
    ((lateImagePanels.take 3).filter fun p => truthy p.imageUrl).length = 0 ∧
    generateAnimaticPlan lateImagePanels ≠ none ∧
    (generateAnimaticPlan lateImagePanels).map (List.map fun p => p.id) =
      some [strOf "d", strOf "e"] := by
  decide

/-- C2 (amended): animatic assembly returns null exactly when fewer than 2
panels of the whole collection have a truthy `imageUrl`; when at least 2
qualify it proceeds using exactly the first up-to-3 image-bearing panels
of the collection, in panel order, as reference images. -/
theorem animatic_plan_spec (ps : PanelStore) :
    (generateAnimaticPlan ps = none ↔
      (ps.filter fun p => truthy p.imageUrl).length < 2) ∧
    (2 ≤ (ps.filter fun p => truthy p.imageUrl).length →
      generateAnimaticPlan ps = some ((ps.filter fun p => truthy p.imageUrl).take 3)) := by
  have hl : (validPanels ps).length < 2 ↔
      (ps.filter fun p => truthy p.imageUrl).length < 2 := by
    simp only [validPanels, List.length_take]
    omega
  by_cases hlt : (validPanels ps).length < 2
  · rw [generateAnimaticPlan, if_pos hlt]
    exact ⟨⟨fun _ => hl.mp hlt, fun _ => rfl⟩,
      fun h2 => absurd (hl.mp hlt) (by omega)⟩
  · rw [generateAnimaticPlan, if_neg hlt]
    refine ⟨⟨fun hc => (Option.some_ne_none _ hc).elim,
      fun hless => absurd (hl.mpr hless) hlt⟩, fun _ => rfl⟩

/-- Concrete instantiation of `animatic_plan_spec`: the five-panel fixture
has two image-bearing panels, so the plan selects exactly them. -/
theorem animatic_plan_spec_witness :
    generateAnimaticPlan lateImagePanels =
      some ((lateImagePanels.filter fun p => truthy p.imageUrl).take 3) :=
  (animatic_plan_spec lateImagePanels).2 (by decide)

/-! ### Claim C9 -/

/-- C9: invoking the video pipeline on a panel whose `imageUrl` is absent
is a complete no-op: no write-back is performed (so `isGeneratingVideo`
is never raised), no external call is issued, and the store after the
handler equals the store before. -/
theorem animate_requires_image (ps : PanelStore) (panel : StoryPanel)
    (o : AnimateOutcome) (himg : panel.imageUrl = none) :
    handleAnimatePanel ps panel o = ⟨[], false⟩ ∧
    finalStore ps (handleAnimatePanel ps panel o) = ps := by
  have ht : truthy panel.imageUrl = false := by rw [himg]; rfl
  constructor
  · simp [handleAnimatePanel, ht]
  · simp [handleAnimatePanel, ht, finalStore]

/-! ### Write-back lemmas -/

/-- A falsy external result is stored as `undefined`. -/
theorem orUndefined_of_falsy (res : Option Str) (hres : truthy res = false) :
    orUndefined res = none := by
  simp [orUndefined, hres]

/-- Pointwise view of a handler write-back. -/
theorem updatePanel_get? (ps : PanelStore) (pid : Str) (f : StoryPanel → StoryPanel)
    (i : Nat) :
    (updatePanel ps pid f).get? i =
      (ps.get? i).map fun p => if p.id = pid then f p else p := by
  simp [updatePanel, List.get?_map]

/-- A single write-back preserves length, ids and untargeted panels. -/
theorem updatePanel_frame (ps : PanelStore) (pid : Str) (f : StoryPanel → StoryPanel)
    (hf : ∀ p, (f p).id = p.id) : framePreserved ps (updatePanel ps pid f) pid := by
  constructor
  · simp [updatePanel]
  · intro i p0 hp
    refine ⟨if p0.id = pid then f p0 else p0, ?_, ?_, ?_⟩
    · rw [updatePanel_get?, hp]
      rfl
    · by_cases h : p0.id = pid <;> simp [h, hf]
    · intro hne
      simp [hne]

/-- Frame preservation composes along successive write-backs. -/
theorem framePreserved_comp {ps qs rs : PanelStore} {pid : Str}
    (h1 : framePreserved ps qs pid) (h2 : framePreserved qs rs pid) :
    framePreserved ps rs pid := by
  obtain ⟨hl1, hp1⟩ := h1
  obtain ⟨hl2, hp2⟩ := h2
  refine ⟨hl2.trans hl1, ?_⟩
  intro i p0 hp
  obtain ⟨q, hq, hqid, hqe⟩ := hp1 i p0 hp
  obtain ⟨r, hr, hrid, hre⟩ := hp2 i q hq
  refine ⟨r, hr, hrid.trans hqid, ?_⟩
  intro hne
  have hqne : q.id ≠ pid := by rw [hqid]; exact hne
  rw [hre hqne, hqe hne]

/-- The two-write shape shared by all pipeline handlers preserves frames. -/
theorem two_step_frame (ps : PanelStore) (pid : Str) (f g : StoryPanel → StoryPanel)
    (hf : ∀ p, (f p).id = p.id) (hg : ∀ p, (g p).id = p.id) :
    framePreserved ps (updatePanel (updatePanel ps pid f) pid g) pid :=
  framePreserved_comp (updatePanel_frame ps pid f hf)
    (updatePanel_frame (updatePanel ps pid f) pid g hg)

/-- Effect of a failed image settlement on the targeted positions: image
cleared, flag dropped, all other fields kept. -/
theorem imageFail_get? (ps : PanelStore) (pid : Str) (res : Option Str)
    (hres : truthy res = false) (i : Nat) (p0 : StoryPanel)
    (hp : ps.get? i = some p0) (hid : p0.id = pid) :
    (updatePanel (updatePanel ps pid startImageFlag) pid (finishImage res)).get? i =
      some { p0 with imageUrl := none, isGeneratingImage := false } := by
  rw [updatePanel_get?, updatePanel_get?, hp]
  simp [hid, startImageFlag, finishImage, orUndefined_of_falsy res hres]

/-! ### Claim C1 -/

/-- C1 counterexample: a regeneration whose external call fails does not
keep the panel's previous `imageUrl`: the write-back stores
`imageUrl || undefined`, wiping the prior image of the targeted panel. -/
theorem image_failure_keeps_prior_cex :
    panelWithImage.imageUrl = some (strOf "data:old") ∧
    (finalStore [panelWithImage]
        (handleGenerateImage [panelWithImage] panelWithImage none)).map
      (fun p => p.imageUrl) = [none] ∧
    some (strOf "data:old") ≠ (none : Option Str) := by
  decide

/-- C1 (amended): for every image-pipeline operation (initial generate,
regenerate, apply-edit, apply-outpaint), when the external call fails
(falsy result) the write-back sets the targeted panel's `imageUrl` to
absent — discarding any prior image — and resets `isGeneratingImage` to
false, leaving every other field of the panel unchanged; the prior
`imageUrl` is therefore preserved exactly when it was already absent. -/
theorem image_failure_clears_image (ps : PanelStore) (panel : StoryPanel)
    (res : Option Str) (d : OutpaintDirection) (hres : truthy res = false) :
    (∀ i p0, ps.get? i = some p0 → p0.id = panel.id →
      (finalStore ps (handleGenerateImage ps panel res)).get? i =
        some { p0 with imageUrl := none, isGeneratingImage := false }) ∧
    (truthy panel.imageUrl = true →
      ∀ i p0, ps.get? i = some p0 → p0.id = panel.id →
        (finalStore ps (handleEditImage ps panel res)).get? i =
          some { p0 with imageUrl := none, isGeneratingImage := false }) ∧
    (truthy panel.imageUrl = true →
      ∀ i p0, ps.get? i = some p0 → p0.id = panel.id →
        (finalStore ps (handleOutpaintImage ps panel d res)).get? i =
          some { p0 with imageUrl := none, isGeneratingImage := false }) := by
  refine ⟨?_, ?_, ?_⟩
  · intro i p0 hp hid
    exact imageFail_get? ps panel.id res hres i p0 hp hid
  · intro hguard i p0 hp hid
    have e : finalStore ps (handleEditImage ps panel res) =
        updatePanel (updatePanel ps panel.id startImageFlag) panel.id (finishImage res) := by
      simp [handleEditImage, hguard, finalStore]
    rw [e]
    exact imageFail_get? ps panel.id res hres i p0 hp hid
  · intro hguard i p0 hp hid
    have e : finalStore ps (handleOutpaintImage ps panel d res) =
        updatePanel (updatePanel ps panel.id startImageFlag) panel.id (finishImage res) := by
      simp [handleOutpaintImage, hguard, finalStore]
    rw [e]
    exact imageFail_get? ps panel.id res hres i p0 hp hid

/-- Concrete instantiation of `image_failure_clears_image`: a failed
regenerate, edit and outpaint on the one-panel store holding an image. -/
theorem image_failure_clears_image_witness :
    (finalStore [panelWithImage]
        (handleGenerateImage [panelWithImage] panelWithImage none)).get? 0 =
      some { panelWithImage with imageUrl := none, isGeneratingImage := false } ∧
    (finalStore [panelWithImage]
        (handleEditImage [panelWithImage] panelWithImage none)).get? 0 =
      some { panelWithImage with imageUrl := none, isGeneratingImage := false } ∧
    (finalStore [panelWithImage]
        (handleOutpaintImage [panelWithImage] panelWithImage .left none)).get? 0 =
      some { panelWithImage with imageUrl := none, isGeneratingImage := false } := by
  have t := image_failure_clears_image [panelWithImage] panelWithImage none .left rfl
  exact ⟨t.1 0 panelWithImage rfl rfl, t.2.1 rfl 0 panelWithImage rfl rfl,
    t.2.2 rfl 0 panelWithImage rfl rfl⟩

/-! ### Claim C10 -/

/-- C10: every per-panel orchestration handler (generate image, edit,
outpaint, animate, play audio) performs only write-backs that preserve
the length and order of the panel collection and the id at every
position, and leave every panel whose id differs from the targeted id
unchanged in all fields. -/
theorem handlers_frame (ps : PanelStore) (panel : StoryPanel) (res : Option Str)
    (d : OutpaintDirection) (o : AnimateOutcome) (pid text : Str) :
    (∀ s ∈ (handleGenerateImage ps panel res).writes, framePreserved ps s panel.id) ∧
    (∀ s ∈ (handleEditImage ps panel res).writes, framePreserved ps s panel.id) ∧
    (∀ s ∈ (handleOutpaintImage ps panel d res).writes, framePreserved ps s panel.id) ∧
    (∀ s ∈ (handleAnimatePanel ps panel o).writes, framePreserved ps s panel.id) ∧
    (∀ s ∈ (handlePlayAudio ps pid text).writes, framePreserved ps s pid) := by
  refine ⟨?_, ?_, ?_, ?_, ?_⟩
  · intro s hs
    simp only [handleGenerateImage, List.mem_cons, List.not_mem_nil, or_false] at hs
    rcases hs with rfl | rfl
    · exact updatePanel_frame ps panel.id startImageFlag fun p => rfl
    · exact two_step_frame ps panel.id startImageFlag (finishImage res)
        (fun p => rfl) (fun p => rfl)
  · intro s hs
    by_cases hguard : truthy panel.imageUrl = true <;>
      simp [handleEditImage, hguard] at hs
    rcases hs with rfl | rfl
    · exact updatePanel_frame ps panel.id startImageFlag fun p => rfl
    · exact two_step_frame ps panel.id startImageFlag (finishImage res)
        (fun p => rfl) (fun p => rfl)
  · intro s hs
    by_cases hguard : truthy panel.imageUrl = true <;>
      simp [handleOutpaintImage, hguard] at hs
    rcases hs with rfl | rfl
    · exact updatePanel_frame ps panel.id startImageFlag fun p => rfl
    · exact two_step_frame ps panel.id startImageFlag (finishImage res)
        (fun p => rfl) (fun p => rfl)
  · intro s hs
    by_cases hguard : truthy panel.imageUrl = true
    · cases o with
      | ok r =>
        simp [handleAnimatePanel, hguard] at hs
        rcases hs with rfl | rfl
        · exact updatePanel_frame ps panel.id startVideoFlag fun p => rfl
        · exact two_step_frame ps panel.id startVideoFlag (finishVideo r)
            (fun p => rfl) (fun p => rfl)
      | threw m =>
        simp [handleAnimatePanel, hguard] at hs
        rcases hs with rfl | rfl
        · exact updatePanel_frame ps panel.id startVideoFlag fun p => rfl
        · exact two_step_frame ps panel.id startVideoFlag clearVideoFlag
            (fun p => rfl) (fun p => rfl)
    · simp [handleAnimatePanel, hguard] at hs
  · intro s hs
    by_cases htext : text.isEmpty = true <;>
      simp [handlePlayAudio, htext] at hs
    rcases hs with rfl | rfl
    · exact updatePanel_frame ps pid startAudioFlag fun p => rfl
    · exact two_step_frame ps pid startAudioFlag clearAudioFlag
        (fun p => rfl) (fun p => rfl)

/-- Concrete instantiation of `handlers_frame`: the first write-back of a
generate call on the one-panel fixture preserves the frame. -/
theorem handlers_frame_witness :
    framePreserved [panelWithImage]
      (updatePanel [panelWithImage] panelWithImage.id startImageFlag)
      panelWithImage.id :=
  (handlers_frame [panelWithImage] panelWithImage none .left (.ok none)
      (strOf "x") (strOf "t")).1
    (updatePanel [panelWithImage] panelWithImage.id startImageFlag)
    (by simp [handleGenerateImage])

/-- Concrete instantiation of `animate_requires_image` at a blank panel. -/
theorem animate_requires_image_witness :
    handleAnimatePanel [blankPanel (strOf "a") 1] (blankPanel (strOf "a") 1)
      (.ok (some (strOf "V"))) = ⟨[], false⟩ ∧
    finalStore [blankPanel (strOf "a") 1]
      (handleAnimatePanel [blankPanel (strOf "a") 1] (blankPanel (strOf "a") 1)
        (.ok (some (strOf "V")))) = [blankPanel (strOf "a") 1] :=
  animate_requires_image [blankPanel (strOf "a") 1] (blankPanel (strOf "a") 1)
    (.ok (some (strOf "V"))) rfl

/-! ### Store-history invariant lemmas -/

/-- A store property over the whole history survives a `setPanels` call
whose new collection satisfies it. -/
theorem histAll_setStateWith (P : PanelStore → Prop) (h : StoreHist)
    (f : PanelStore → PanelStore) (hh : histAll P h) (hnew : P (f h.current)) :
    histAll P (h.setStateWith f) := by
  obtain ⟨hc, hp, _⟩ := hh
  refine ⟨hnew, ?_, ?_⟩
  · intro s hs
    rcases List.mem_append.mp hs with h1 | h1
    · exact hp s h1
    · rw [List.mem_singleton.mp h1]
      exact hc
  · intro s hs
    exact absurd hs (List.not_mem_nil s)

/-- A store property over the whole history survives `undo`. -/
theorem histAll_undo (P : PanelStore → Prop) (h : StoreHist)
    (hh : histAll P h) : histAll P h.undo := by
  cases h with
  | mk ps c fut =>
    obtain ⟨hc, hp, hfu⟩ := hh
    rcases List.eq_nil_or_concat ps with rfl | ⟨l, x, rfl⟩
    · exact ⟨hc, hp, hfu⟩
    · rw [List.concat_eq_append] at hp ⊢
      rw [undo_concat]
      refine ⟨hp x (List.mem_append_right l (List.mem_singleton_self x)), ?_, ?_⟩
      · intro s hs
        exact hp s (List.mem_append_left _ hs)
      · intro s hs
        rcases List.mem_cons.mp hs with rfl | h2
        · exact hc
        · exact hfu s h2

/-- A store property over the whole history survives `redo`. -/
theorem histAll_redo (P : PanelStore → Prop) (h : StoreHist)
    (hh : histAll P h) : histAll P h.redo := by
  cases h with
  | mk ps c fut =>
    obtain ⟨hc, hp, hfu⟩ := hh
    cases fut with
    | nil => exact ⟨hc, hp, hfu⟩
    | cons nxt rest =>
      refine ⟨hfu nxt (List.mem_cons_self nxt rest), ?_, ?_⟩
      · intro s hs
        rcases List.mem_append.mp hs with h1 | h1
        · exact hp s h1
        · rw [List.mem_singleton.mp h1]
          exact hc
      · intro s hs
        exact hfu s (List.mem_cons_of_mem nxt hs)

/-- A write-back whose update preserves ids leaves the id sequence of the
store unchanged. -/
theorem storeIds_updatePanel (ps : PanelStore) (pid : Str)
    (f : StoryPanel → StoryPanel) (hf : ∀ p, (f p).id = p.id) :
    storeIds (updatePanel ps pid f) = storeIds ps := by
  simp only [storeIds, updatePanel, List.map_map]
  apply List.map_congr_left
  intro p _
  by_cases h : p.id = pid <;> simp [h, hf]

/-- The media invariant survives a write-back whose update keeps it on
the targeted panels. -/
theorem mediaInv_updatePanel (ps : PanelStore) (pid : Str)
    (f : StoryPanel → StoryPanel) (hinv : mediaInv ps)
    (htgt : ∀ p ∈ ps, p.id = pid → (f p).imageUrl = none → (f p).videoUrl = none) :
    mediaInv (updatePanel ps pid f) := by
  intro q hq
  obtain ⟨p, hp, rfl⟩ := List.mem_map.mp hq
  by_cases h : p.id = pid
  · rw [if_pos h]
    exact htgt p hp h
  · rw [if_neg h]
    exact hinv p hp

/-- The media invariant survives a write-back that touches neither
`imageUrl` nor `videoUrl` (pure flag flips). -/
theorem mediaInv_update_mediaKeep (ps : PanelStore) (pid : Str)
    (f : StoryPanel → StoryPanel) (hinv : mediaInv ps)
    (hkeep : ∀ p, (f p).imageUrl = p.imageUrl ∧ (f p).videoUrl = p.videoUrl) :
    mediaInv (updatePanel ps pid f) := by
  apply mediaInv_updatePanel ps pid f hinv
  intro p hp _ himg
  rw [(hkeep p).2]
  exact hinv p hp (by rw [← (hkeep p).1]; exact himg)

/-- The media invariant survives an image settlement, provided the result
is truthy or the targeted panels carry no clip. -/
theorem mediaInv_update_finishImage (ps : PanelStore) (pid : Str) (res : Option Str)
    (hinv : mediaInv ps)
    (hsafe : truthy res = true ∨ ∀ p ∈ ps, p.id = pid → p.videoUrl = none) :
    mediaInv (updatePanel ps pid (finishImage res)) := by
  apply mediaInv_updatePanel ps pid _ hinv
  intro p hp hid himg
  rcases hsafe with htr | hnv
  · exfalso
    have hres : orUndefined res = res := by simp [orUndefined, htr]
    rw [show (finishImage res p).imageUrl = orUndefined res from rfl, hres] at himg
    cases res with
    | none => simp [truthy] at htr
    | some s => simp at himg
  · exact hnv p hp hid

/-- The media invariant survives a video settlement, provided the
targeted panels carry a truthy image. -/
theorem mediaInv_update_finishVideo (ps : PanelStore) (pid : Str) (res : Option Str)
    (hinv : mediaInv ps)
    (himgAll : ∀ p ∈ ps, p.id = pid → truthy p.imageUrl = true) :
    mediaInv (updatePanel ps pid (finishVideo res)) := by
  apply mediaInv_updatePanel ps pid _ hinv
  intro p hp hid himg
  exfalso
  have ht := himgAll p hp hid
  rw [show (finishVideo res p).imageUrl = p.imageUrl from rfl] at himg
  rw [himg] at ht
  simp [truthy] at ht

/-- An id- and video-preserving write-back keeps the clip-free condition
on the targeted panels. -/
theorem targets_noVideo_update (ps : PanelStore) (pid : Str)
    (f : StoryPanel → StoryPanel)
    (hf : ∀ p, (f p).id = p.id ∧ (f p).videoUrl = p.videoUrl)
    (hnv : ∀ p ∈ ps, p.id = pid → p.videoUrl = none) :
    ∀ p ∈ updatePanel ps pid f, p.id = pid → p.videoUrl = none := by
  intro q hq hid
  obtain ⟨p, hp, rfl⟩ := List.mem_map.mp hq
  by_cases h : p.id = pid
  · rw [if_pos h] at hid ⊢
    rw [(hf p).2]
    exact hnv p hp h
  · rw [if_neg h] at hid ⊢
    exact hnv p hp hid

/-- An id- and image-preserving write-back keeps the truthy-image
condition on the targeted panels. -/
theorem targets_truthyImage_update (ps : PanelStore) (pid : Str)
    (f : StoryPanel → StoryPanel)
    (hf : ∀ p, (f p).id = p.id ∧ (f p).imageUrl = p.imageUrl)
    (him : ∀ p ∈ ps, p.id = pid → truthy p.imageUrl = true) :
    ∀ p ∈ updatePanel ps pid f, p.id = pid → truthy p.imageUrl = true := by
  intro q hq hid
  obtain ⟨p, hp, rfl⟩ := List.mem_map.mp hq
  by_cases h : p.id = pid
  · rw [if_pos h] at hid ⊢
    rw [(hf p).2]
    exact him p hp h
  · rw [if_neg h] at hid ⊢
    exact him p hp hid

/-- With distinct ids, a true `storeTruthyImage` guard means every panel
matching the id carries a truthy image. -/
theorem storeTruthyImage_all (pid : Str) :
    ∀ ps : PanelStore, (storeIds ps).Nodup → storeTruthyImage ps pid = true →
      ∀ p ∈ ps, p.id = pid → truthy p.imageUrl = true := by
  intro ps
  induction ps with
  | nil =>
    intro _ _ p hp
    exact absurd hp (List.not_mem_nil p)
  | cons q rest ih =>
    intro hnd hg p hp hpid
    by_cases hq : q.id = pid
    · have hpos : List.find? (fun p => decide (p.id = pid)) (q :: rest) = some q :=
        List.find?_cons_of_pos _ (by simp [hq])
      have hfind : storeTruthyImage (q :: rest) pid = truthy q.imageUrl := by
        simp [storeTruthyImage, hpos]
      rcases List.mem_cons.mp hp with rfl | hrest
      · rw [← hfind]
        exact hg
      · exfalso
        have hmem : p.id ∈ storeIds rest := List.mem_map_of_mem (fun p => p.id) hrest
        have hqmem : q.id ∈ storeIds rest := by
          rw [hq, ← hpid]
          exact hmem
        exact (List.nodup_cons.mp hnd).1 hqmem
    · have hneg : List.find? (fun p => decide (p.id = pid)) (q :: rest) =
          List.find? (fun p => decide (p.id = pid)) rest :=
        List.find?_cons_of_neg _ (by simp [hq])
      have hfind : storeTruthyImage (q :: rest) pid = storeTruthyImage rest pid := by
        simp [storeTruthyImage, hneg]
      rcases List.mem_cons.mp hp with rfl | hrest
      · exact absurd hpid hq
      · exact ih (List.nodup_cons.mp hnd).2 (hfind ▸ hg) p hrest hpid

/-- The two write-backs of an image-pipeline operation preserve the store
invariant over the whole history, under the safety side condition. -/
theorem histAll_imageOpApply (h : StoreHist) (pid : Str) (res : Option Str)
    (hh : histAll storeInv h) (hsafe : imageOpSafe h.current pid res) :
    histAll storeInv (imageOpApply h pid res) := by
  have hcur := hh.1
  have hs1 : storeInv (updatePanel h.current pid startImageFlag) := by
    constructor
    · exact mediaInv_update_mediaKeep _ pid _ hcur.1 fun p => ⟨rfl, rfl⟩
    · rw [storeIds_updatePanel _ pid startImageFlag fun p => rfl]
      exact hcur.2
  have h1 : histAll storeInv (h.setStateWith fun ps => updatePanel ps pid startImageFlag) :=
    histAll_setStateWith _ h _ hh hs1
  apply histAll_setStateWith _ _ _ h1
  show storeInv (updatePanel (updatePanel h.current pid startImageFlag) pid (finishImage res))
  constructor
  · apply mediaInv_update_finishImage _ pid res hs1.1
    rcases hsafe with htr | hnv
    · exact Or.inl htr
    · exact Or.inr (targets_noVideo_update h.current pid startImageFlag
        (fun p => ⟨rfl, rfl⟩) hnv)
  · rw [storeIds_updatePanel _ pid (finishImage res) fun p => rfl]
    exact hs1.2

/-- The write-backs of `handleAnimatePanel` preserve the store invariant
over the whole history, under the handler's own guard. -/
theorem histAll_animateOpApply (h : StoreHist) (pid : Str) (o : AnimateOutcome)
    (hh : histAll storeInv h) (hguard : storeTruthyImage h.current pid = true) :
    histAll storeInv (animateOpApply h pid o) := by
  have hcur := hh.1
  have hs1 : storeInv (updatePanel h.current pid startVideoFlag) := by
    constructor
    · exact mediaInv_update_mediaKeep _ pid _ hcur.1 fun p => ⟨rfl, rfl⟩
    · rw [storeIds_updatePanel _ pid startVideoFlag fun p => rfl]
      exact hcur.2
  have h1 : histAll storeInv (h.setStateWith fun ps => updatePanel ps pid startVideoFlag) :=
    histAll_setStateWith _ h _ hh hs1
  have htruthy : ∀ p ∈ updatePanel h.current pid startVideoFlag,
      p.id = pid → truthy p.imageUrl = true :=
    targets_truthyImage_update h.current pid startVideoFlag (fun p => ⟨rfl, rfl⟩)
      (storeTruthyImage_all pid h.current hcur.2 hguard)
  cases o with
  | ok res =>
    apply histAll_setStateWith _ _ _ h1
    show storeInv (updatePanel (updatePanel h.current pid startVideoFlag) pid (finishVideo res))
    constructor
    · exact mediaInv_update_finishVideo _ pid res hs1.1 htruthy
    · rw [storeIds_updatePanel _ pid (finishVideo res) fun p => rfl]
      exact hs1.2
  | threw m =>
    apply histAll_setStateWith _ _ _ h1
    show storeInv (updatePanel (updatePanel h.current pid startVideoFlag) pid clearVideoFlag)
    constructor
    · exact mediaInv_update_mediaKeep _ pid _ hs1.1 fun p => ⟨rfl, rfl⟩
    · rw [storeIds_updatePanel _ pid clearVideoFlag fun p => rfl]
      exact hs1.2

/-- Every safe panel operation preserves the store invariant over the
whole history. -/
theorem histAll_applyPanelOp (h : StoreHist) (op : PanelOp)
    (hh : histAll storeInv h) (hsafe : opSafe h op) :
    histAll storeInv (applyPanelOp h op) := by
  cases op with
  | generate pid res => exact histAll_imageOpApply h pid res hh hsafe
  | edit pid res =>
    cases hguard : storeTruthyImage h.current pid with
    | true =>
      simp [applyPanelOp, hguard]
      exact histAll_imageOpApply h pid res hh hsafe
    | false =>
      simp [applyPanelOp, hguard]
      exact hh
  | outpaint pid res =>
    cases hguard : storeTruthyImage h.current pid with
    | true =>
      simp [applyPanelOp, hguard]
      exact histAll_imageOpApply h pid res hh hsafe
    | false =>
      simp [applyPanelOp, hguard]
      exact hh
  | animate pid o =>
    cases hguard : storeTruthyImage h.current pid with
    | true =>
      simp [applyPanelOp, hguard]
      exact histAll_animateOpApply h pid o hh hguard
    | false =>
      simp [applyPanelOp, hguard]
      exact hh
  | undoOp => exact histAll_undo _ h hh
  | redoOp => exact histAll_redo _ h hh

/-- The store invariant over the whole history survives every safe
operation trace. -/
theorem histAll_runPanelOps (ops : List PanelOp) :
    ∀ h : StoreHist, histAll storeInv h → SafeTrace h ops →
      histAll storeInv (runPanelOps h ops) := by
  induction ops with
  | nil =>
    intro h hh _
    exact hh
  | cons op rest ih =>
    intro h hh hsafe
    obtain ⟨h1, h2⟩ := hsafe
    exact ih (applyPanelOp h op) (histAll_applyPanelOp h op hh h1) h2

/-! ### Claim C3 -/

/-- C3 counterexample: from an analyzed one-panel script, generate an
image, animate it, then regenerate with a failing external call: the
failed settlement stores `imageUrl || undefined`, clearing the still while
the clip remains — the reachable state violates the invariant that a
panel without `imageUrl` has no `videoUrl`. -/
theorem media_invariant_cex :
    analyzedBlank [blankPanel (strOf "a") 1] ∧
    ¬ mediaInv (runPanelOps ⟨[], [blankPanel (strOf "a") 1], []⟩
      clipWithoutStillTrace).current := by
  decide

/-- C3 (amended): from an analyzed script (blank media, distinct ids),
every sequence of generate / edit / outpaint / animate / undo / redo
operations in which no image operation settles with a falsy result on a
panel currently holding a clip maintains, in every snapshot of the
reachable history (current, past and future), that a panel with an absent
`imageUrl` has an absent `videoUrl`. Since every prefix of a safe trace is
safe, this covers every reachable state. -/
theorem media_invariant_safe (ps0 : PanelStore) (ops : List PanelOp)
    (h0 : analyzedBlank ps0) (hsafe : SafeTrace ⟨[], ps0, []⟩ ops) :
    histMediaInv (runPanelOps ⟨[], ps0, []⟩ ops) := by
  have hinv0 : histAll storeInv (⟨[], ps0, []⟩ : StoreHist) := by
    refine ⟨⟨?_, h0.2⟩, ?_, ?_⟩
    · intro p hp _
      exact (h0.1 p hp).2
    · intro s hs
      exact absurd hs (List.not_mem_nil s)
    · intro s hs
      exact absurd hs (List.not_mem_nil s)
  have hall := histAll_runPanelOps ops _ hinv0 hsafe
  exact ⟨hall.1.1, fun s hs => (hall.2.1 s hs).1, fun s hs => (hall.2.2 s hs).1⟩

/-- Concrete instantiation of `media_invariant_safe`: a successful
generate followed by a successful animate on a one-panel script. -/
theorem media_invariant_safe_witness :
    histMediaInv (runPanelOps ⟨[], [blankPanel (strOf "a") 1], []⟩
      [.generate (strOf "a") (some (strOf "I")),
       .animate (strOf "a") (.ok (some (strOf "V")))]) :=
  media_invariant_safe [blankPanel (strOf "a") 1]
    [.generate (strOf "a") (some (strOf "I")),
     .animate (strOf "a") (.ok (some (strOf "V")))]
    (by decide) ⟨Or.inl (by decide), trivial, trivial⟩

/-! ### Prompt-composition lemmas -/

/-- Evaluation of a reinforcement step whose character name occurs in the
working prompt. -/
theorem reinforceStep_pos (s : Str) (c : CharacterProfile) (h : c.name <:+: s) :
    reinforceStep s c =
      s ++ strOf " (" ++ c.name ++ strOf " is " ++ c.description ++ strOf ")" := by
  simp only [reinforceStep]
  rw [if_pos h]

/-- Evaluation of a reinforcement step whose character name does not occur
in the working prompt. -/
theorem reinforceStep_neg (s : Str) (c : CharacterProfile) (h : ¬ c.name <:+: s) :
    reinforceStep s c = s := by
  simp only [reinforceStep]
  rw [if_neg h]

/-- A reinforcement step is injective in the working prompt: the appended
parenthetical always contains the name, so a prompt that matched cannot
collide with one that did not. -/
theorem reinforceStep_inj (c : CharacterProfile) (s t : Str)
    (he : reinforceStep s c = reinforceStep t c) : s = t := by
  by_cases hs : c.name <:+: s <;> by_cases ht : c.name <:+: t
  · rw [reinforceStep_pos s c hs, reinforceStep_pos t c ht] at he
    simp only [List.append_assoc] at he
    exact List.append_cancel_right he
  · exfalso
    rw [reinforceStep_pos s c hs, reinforceStep_neg t c ht] at he
    apply ht
    rw [← he]
    exact ⟨s ++ strOf " (", strOf " is " ++ c.description ++ strOf ")",
      by simp [List.append_assoc]⟩
  · exfalso
    rw [reinforceStep_neg s c hs, reinforceStep_pos t c ht] at he
    apply hs
    rw [he]
    exact ⟨t ++ strOf " (", strOf " is " ++ c.description ++ strOf ")",
      by simp [List.append_assoc]⟩
  · rw [reinforceStep_neg s c hs, reinforceStep_neg t c ht] at he
    exact he

/-- The remaining reinforcement fold is injective in the working prompt. -/
theorem reinforceFold_inj (cs : List CharacterProfile) :
    ∀ s t : Str, List.foldl reinforceStep s cs = List.foldl reinforceStep t cs →
      s = t := by
  induction cs with
  | nil =>
    intro s t he
    exact he
  | cons c rest ih =>
    intro s t he
    rw [List.foldl_cons, List.foldl_cons] at he
    exact reinforceStep_inj c s t (ih _ _ he)

/-- Two reinforcement steps for the same matching name but different
descriptions produce different working prompts. -/
theorem reinforceStep_desc_ne (w : Str) (c : CharacterProfile) (d2 : Str)
    (hm : c.name <:+: w) (hd : d2 ≠ c.description) :
    reinforceStep w c ≠ reinforceStep w ⟨c.name, d2⟩ := by
  intro he
  rw [reinforceStep_pos w c hm, reinforceStep_pos w ⟨c.name, d2⟩ hm] at he
  simp only [List.append_assoc] at he
  have h1 := List.append_cancel_left (List.append_cancel_left
    (List.append_cancel_left (List.append_cancel_left he)))
  exact hd (List.append_cancel_right h1).symm

/-- On a truthy cached prompt, the composed prompt reinforces it. -/
theorem finalPrompt_cached (p : StoryPanel) (cs : List CharacterProfile) (ip : Str)
    (hip : p.imagePrompt = some ip) (htr : truthy p.imagePrompt = true) :
    finalPrompt p cs = reinforceAll cs ip := by
  have htr2 : truthy (some ip) = true := by
    rw [← hip]
    exact htr
  simp [finalPrompt, hip, htr2]

/-- Splitting the reinforcement loop around one registry entry. -/
theorem reinforceAll_split (pre post : List CharacterProfile) (c : CharacterProfile)
    (ip : Str) :
    reinforceAll (pre ++ c :: post) ip =
      List.foldl reinforceStep (reinforceStep (List.foldl reinforceStep ip pre) c)
        post := by
  simp [reinforceAll, List.foldl_append]

/-- The style/quality wrapper is injective: two compositions coincide
exactly when their final prompts coincide. -/
theorem structuredPrompt_eq_iff (p : StoryPanel) (style : Str)
    (cs1 cs2 : List CharacterProfile) :
    (structuredPrompt p style cs1 = structuredPrompt p style cs2) ↔
      finalPrompt p cs1 = finalPrompt p cs2 := by
  constructor
  · intro he
    simp only [structuredPrompt, List.append_assoc] at he
    exact List.append_cancel_right (List.append_cancel_left
      (List.append_cancel_left (List.append_cancel_left he)))
  · intro he
    simp [structuredPrompt, he]

/-- A fallback context step factors through its accumulator. -/
theorem fallbackStep_acc (p : StoryPanel) (acc : Str) (c : CharacterProfile) :
    fallbackStep p acc c = acc ++ fallbackStep p [] c := by
  cases hm : fallbackMatch p c <;> simp [fallbackStep, hm]

/-- The fallback context fold factors through its accumulator. -/
theorem characterContext_acc (p : StoryPanel) :
    ∀ (l : List CharacterProfile) (acc : Str),
      List.foldl (fallbackStep p) acc l = acc ++ List.foldl (fallbackStep p) [] l := by
  intro l
  induction l with
  | nil =>
    intro acc
    simp
  | cons c rest ih =>
    intro acc
    rw [List.foldl_cons, List.foldl_cons, ih (fallbackStep p acc c),
      ih (fallbackStep p [] c), fallbackStep_acc]
    simp [List.append_assoc]

/-- Splitting the fallback character context around one registry entry. -/
theorem characterContext_split (p : StoryPanel) (pre post : List CharacterProfile)
    (c : CharacterProfile) :
    characterContext p (pre ++ c :: post) =
      characterContext p pre ++ fallbackStep p [] c ++ characterContext p post := by
  unfold characterContext
  rw [List.foldl_append, List.foldl_cons, characterContext_acc p post, fallbackStep_acc]

/-- On a falsy cached prompt, the composed prompt uses the fallback
construction. -/
theorem finalPrompt_fallback (p : StoryPanel) (cs : List CharacterProfile)
    (hfb : truthy p.imagePrompt = false) :
    finalPrompt p cs = strOf "Shot Type: " ++ jsTemplateOpt p.shotType ++
      strOf ". Scene: " ++ p.visualDescription ++ strOf ". Characters: " ++
      characterContext p cs := by
  simp [finalPrompt, hfb]

/-- On the fallback path, two compositions coincide exactly when their
character contexts coincide. -/
theorem finalPrompt_fallback_eq_iff (p : StoryPanel)
    (cs1 cs2 : List CharacterProfile) (hfb : truthy p.imagePrompt = false) :
    (finalPrompt p cs1 = finalPrompt p cs2) ↔
      characterContext p cs1 = characterContext p cs2 := by
  rw [finalPrompt_fallback p cs1 hfb, finalPrompt_fallback p cs2 hfb]
  constructor
  · intro he
    simp only [List.append_assoc] at he
    exact List.append_cancel_left (List.append_cancel_left (List.append_cancel_left
      (List.append_cancel_left (List.append_cancel_left he))))
  · intro he
    rw [he]

/-- On the fallback path, editing the description of a matching character
changes the character context. -/
theorem characterContext_desc_ne (p : StoryPanel) (pre post : List CharacterProfile)
    (c : CharacterProfile) (d2 : Str) (hmatch : fallbackMatch p c = true)
    (hd : d2 ≠ c.description) :
    characterContext p (pre ++ c :: post) ≠
      characterContext p (pre ++ ⟨c.name, d2⟩ :: post) := by
  intro he
  rw [characterContext_split, characterContext_split] at he
  have hm2 : fallbackMatch p (⟨c.name, d2⟩ : CharacterProfile) = true := hmatch
  have h1 : fallbackStep p [] c = fallbackStep p [] ⟨c.name, d2⟩ := by
    simp only [List.append_assoc] at he
    exact List.append_cancel_right (List.append_cancel_left he)
  simp [fallbackStep, hmatch, hm2] at h1
  exact hd h1.symm

/-! ### Claim C6 -/

/-- C6: prompt composition is a pure deterministic function of
(panel, style, characters). On the cached-prompt path, editing one
character's description changes the composed prompt whenever the name
occurs in the working prompt at that character's reinforcement check, and
leaves the prompt byte-identical when it does not; on the fallback path,
the same dichotomy is governed by the code's matching condition (name in
visual description or dialogue). -/
theorem prompt_composition_pure_and_local (p : StoryPanel) (style : Str)
    (pre post : List CharacterProfile) (c : CharacterProfile) (d2 : Str) :
    (∀ (p2 : StoryPanel) (style2 : Str) (cs cs2 : List CharacterProfile),
      p = p2 → style = style2 → cs = cs2 →
      structuredPrompt p style cs = structuredPrompt p2 style2 cs2) ∧
    (∀ ip, p.imagePrompt = some ip → truthy p.imagePrompt = true →
      (c.name <:+: List.foldl reinforceStep ip pre → d2 ≠ c.description →
        structuredPrompt p style (pre ++ c :: post) ≠
          structuredPrompt p style (pre ++ ⟨c.name, d2⟩ :: post)) ∧
      (¬ c.name <:+: List.foldl reinforceStep ip pre →
        structuredPrompt p style (pre ++ c :: post) =
          structuredPrompt p style (pre ++ ⟨c.name, d2⟩ :: post))) ∧
    (truthy p.imagePrompt = false →
      (fallbackMatch p c = true → d2 ≠ c.description →
        structuredPrompt p style (pre ++ c :: post) ≠
          structuredPrompt p style (pre ++ ⟨c.name, d2⟩ :: post)) ∧
      (fallbackMatch p c = false →
        structuredPrompt p style (pre ++ c :: post) =
          structuredPrompt p style (pre ++ ⟨c.name, d2⟩ :: post))) := by
  refine ⟨?_, ?_, ?_⟩
  · rintro p2 style2 cs cs2 rfl rfl rfl
    rfl
  · intro ip hip htr
    constructor
    · intro hm hd he
      rw [structuredPrompt_eq_iff] at he
      rw [finalPrompt_cached p _ ip hip htr, finalPrompt_cached p _ ip hip htr] at he
      rw [reinforceAll_split, reinforceAll_split] at he
      exact reinforceStep_desc_ne _ c d2 hm hd (reinforceFold_inj post _ _ he)
    · intro hm
      rw [structuredPrompt_eq_iff]
      rw [finalPrompt_cached p _ ip hip htr, finalPrompt_cached p _ ip hip htr]
      rw [reinforceAll_split, reinforceAll_split]
      rw [reinforceStep_neg _ c hm, reinforceStep_neg _ ⟨c.name, d2⟩ hm]
  · intro hfb
    constructor
    · intro hmatch hd he
      rw [structuredPrompt_eq_iff, finalPrompt_fallback_eq_iff p _ _ hfb] at he
      exact characterContext_desc_ne p pre post c d2 hmatch hd he
    · intro hmatch
      rw [structuredPrompt_eq_iff, finalPrompt_fallback_eq_iff p _ _ hfb]
      rw [characterContext_split, characterContext_split]
      have hm2 : fallbackMatch p (⟨c.name, d2⟩ : CharacterProfile) = false := hmatch
      have e1 : fallbackStep p [] c = [] := by
        simp [fallbackStep, hmatch]
      have e2 : fallbackStep p [] (⟨c.name, d2⟩ : CharacterProfile) = [] := by
        simp [fallbackStep, hm2]
      rw [e1, e2]

/-- Concrete instantiation of `prompt_composition_pure_and_local`: editing
the description of Alice changes the composition for a panel whose cached
prompt mentions Alice, and leaves the composition identical for a panel
mentioning only Bob. -/
theorem prompt_composition_pure_and_local_witness :
    structuredPrompt promptPanelA (strOf "Film Noir") [alice] ≠
      structuredPrompt promptPanelA (strOf "Film Noir")
        [⟨strOf "Alice", strOf "short"⟩] ∧
    structuredPrompt promptPanelB (strOf "Film Noir") [alice] =
      structuredPrompt promptPanelB (strOf "Film Noir")
        [⟨strOf "Alice", strOf "short"⟩] := by
  constructor
  · exact ((prompt_composition_pure_and_local promptPanelA (strOf "Film Noir")
      [] [] alice (strOf "short")).2.1 (strOf "Alice runs") rfl rfl).1
      (by decide) (by decide)
  · exact ((prompt_composition_pure_and_local promptPanelB (strOf "Film Noir")
      [] [] alice (strOf "short")).2.2 rfl).2 (by decide)

end StoryBoard
